import Mathlib

/-!
Verification development for the calendar engine of react-native-calendar-datepicker.

The engine (src/utils.ts and the selection logic of src/datetime-picker.tsx) is shallowly
embedded below.  Timestamps are modelled as whole seconds (`Int`) since the Unix epoch in a
fixed time zone; dayjs's millisecond granularity and zone handling collapse to this model.
Behaviour supplied by external libraries (the @umalqura/core table and the calendar-systems
dayjs plugin) is abstracted into explicit structures of conversion functions, so that every
theorem quantifies over all possible behaviours of those libraries, and concrete instances
are supplied where a concrete evaluation is needed.
-/

namespace RNCal

/-- Seconds in one civil day (the model works in whole seconds; dayjs uses milliseconds). -/
def secPerDay : Int := 86400

/-- Day index (days since the epoch) of a timestamp: the civil day it falls on. -/
def dayIdx (t : Int) : Int := t / secPerDay

/-- Model of dayjs startOf day: floor the timestamp to midnight of its civil day. -/
def startOfDay (t : Int) : Int := t / secPerDay * secPerDay

/-- Model of dayjs endOf day: the last second of the civil day. -/
def endOfDay (t : Int) : Int := startOfDay t + (secPerDay - 1)

/-- Embedding of areDatesOnSameDay (utils.ts).  `toKey` abstracts the calendar-dependent
rendering getDayjs(x, calendar).format(DATE_FORMAT): two dates are on the same day exactly
when their keys agree.  The `!a || !b` guard makes the result false when either input is
absent, before any conversion happens. -/
def areDatesOnSameDay (toKey : Int → Int) (a b : Option Int) : Bool :=
  match a, b with
  | none, _ => false
  | _, none => false
  | some x, some y => toKey x == toKey y

/-- The gregorian same-day key: the civil day index (two timestamps format to the same
YYYY-MM-DD string exactly when they lie on the same civil day). -/
def gregKey : Int → Int := dayIdx

/-- An enabledDates / disabledDates rule: an explicit list of dates or a predicate. -/
inductive DateRule where
  | list (l : List Int)
  | pred (f : Int → Bool)

/-- Option bag of isDateDisabled (utils.ts). -/
structure DisabledOpts where
  minDate : Option Int
  maxDate : Option Int
  enabledDates : Option DateRule
  disabledDates : Option DateRule

/-- Truthiness test of the min bound: date.isBefore(getDayjs(minDate).startOf(day)). -/
def belowMin (date : Int) (minDate : Option Int) : Bool :=
  match minDate with
  | some m => decide (date < startOfDay m)
  | none => false

/-- Truthiness test of the max bound: date.isAfter(getDayjs(maxDate).endOf(day)). -/
def aboveMax (date : Int) (maxDate : Option Int) : Bool :=
  match maxDate with
  | some m => decide (endOfDay m < date)
  | none => false

/-- Matching a date against a rule, as the source does inside isDateDisabled: list rules by
same-day comparison of each entry, predicate rules by applying the function. -/
def matchesRule (toKey : Int → Int) (r : DateRule) (date : Int) : Bool :=
  match r with
  | DateRule.list l => l.any fun e => areDatesOnSameDay toKey (some date) (some e)
  | DateRule.pred f => f date

/-- Embedding of isDateDisabled (utils.ts): below-min and above-max first; then, when an
enabled rule is present, the date is disabled unless it matches it; only when no enabled rule
exists is the disabled rule consulted. -/
def isDateDisabled (toKey : Int → Int) (date : Int) (o : DisabledOpts) : Bool :=
  if belowMin date o.minDate then true
  else if aboveMax date o.maxDate then true
  else
    match o.enabledDates, o.disabledDates with
    | some r, _ => !matchesRule toKey r date
    | none, some r => matchesRule toKey r date
    | none, none => false

/-- JS truthiness of an optional numeric bound (the range min / max day counts and the
multiple-mode max count): present and nonzero. -/
def truthyNum (o : Option Nat) : Bool :=
  match o with
  | some n => n != 0
  | none => false

/-- Model of removeTime (utils.ts) for the default gregorian calendar: absent stays absent,
otherwise the time of day is zeroed. -/
def removeTime (d : Option Int) : Option Int :=
  match d with
  | none => none
  | some t => some (startOfDay t)

/-- Model of dateToUnix (utils.ts) for the gregorian calendar.  getDayjs(undefined) falls
back to the current instant, so converting an absent date yields the current unix time
`now`. -/
def dateToUnix (now : Int) (d : Option Int) : Int :=
  match d with
  | some t => t
  | none => now

/-- Truncating day difference getDayjs(a).diff(b, day).  Every call site passes start-of-day
values, for which dayjs's truncation toward zero and the floor division used here agree
(the difference is an exact multiple of a day). -/
def diffDays (a b : Int) : Int := (a - b) / secPerDay

/-- Violation test of the configured range span bounds, as written twice inside the range
branch: (max && numberOfDays > max) || (min && numberOfDays < min). -/
def spanViolated (minB maxB : Option Nat) (numberOfDays : Int) : Bool :=
  (truthyNum maxB && decide ((maxB.getD 0 : Int) < numberOfDays)) ||
    (truthyNum minB && decide (numberOfDays < (minB.getD 0 : Int)))

/-- Payload of a range-mode change notification. -/
structure RangeChangePayload where
  startDate : Option Int
  endDate : Option Int
deriving DecidableEq, Repr

/-- Embedding of the range branch of onSelectDate (datetime-picker.tsx), for the default
gregorian calendar.  `stateStart` / `stateEnd` are the current selection, `selectedDate` the
picked date, `minB` / `maxB` the configured day-count bounds, and `now` the current instant
used by dateToUnix when a bound of the selection is absent.  The sequential mutations of the
source (isStart, isReset, end) are translated into the numbered let bindings below, in source
order. -/
def onSelectDateRange (now : Int) (stateStart stateEnd : Option Int) (selectedDate : Int)
    (minB maxB : Option Nat) : RangeChangePayload :=
  let start := removeTime stateStart
  let end0 := removeTime stateEnd
  let selected := startOfDay selectedDate
  let selectedUnix := dateToUnix now (some selected)
  let startUnix := dateToUnix now start
  let endUnix := dateToUnix now end0
  let cond1 := (selectedUnix != endUnix) && decide (startUnix ≤ selectedUnix) &&
    (startUnix != endUnix)
  let isStart1 := !cond1
  let isReset1 := !cond1 && start.isSome && (selectedUnix == startUnix)
  let isStart2 :=
    if start.isSome && end0.isSome && (startUnix == endUnix) && decide (startUnix < selectedUnix)
    then false else isStart1
  let end1 :=
    if start.isSome && end0.isSome && decide (startUnix < selectedUnix) &&
        (selectedUnix == endUnix)
    then none else end0
  let end2 := if start.isSome && end1.isNone && decide (selectedUnix < startUnix) then start
    else end1
  let hit1 := isStart2 && end2.isSome && (truthyNum minB || truthyNum maxB) &&
    spanViolated minB maxB (diffDays (dateToUnix now end2) selected)
  let end3 := if hit1 then none else end2
  let inBlock2 := !isStart2 && start.isSome && (truthyNum minB || truthyNum maxB)
  let isReset2 := isReset1 || (inBlock2 && (selectedUnix == startUnix))
  let hit2 := inBlock2 && !(selectedUnix == startUnix) &&
    spanViolated minB maxB (diffDays selected (dateToUnix now start))
  let isStart3 := if hit2 then true else isStart2
  let end4 := if hit2 then none else end3
  if isReset2 then ⟨none, none⟩
  else
    ⟨if isStart3 then some selected else start,
      if !isStart3 then some (endOfDay selected) else end4.map endOfDay⟩

/-- Kind of a multiple-mode change notification. -/
inductive MultiChangeKind where
  | added
  | removed
deriving DecidableEq, Repr

/-- Payload of a multiple-mode change notification. -/
structure MultiChangePayload where
  dates : List Int
  datePressed : Int
  change : MultiChangeKind
deriving DecidableEq, Repr

/-- Embedding of the multiple branch of onSelectDate (datetime-picker.tsx), for the default
gregorian calendar.  `none` models the early return that emits no change notification (the
guard `if (max && newDates.length > max) return`).  The in-place ascending sort by instant is
modelled by insertionSort with the ≤ order. -/
def onSelectDateMultiple (stateDates : List Int) (selectedDate : Int) (maxB : Option Nat) :
    Option MultiChangePayload :=
  let newDate := startOfDay selectedDate
  let existsSameDay := stateDates.any fun ed => areDatesOnSameDay gregKey (some ed) (some newDate)
  let newDates :=
    if existsSameDay then
      stateDates.filter fun ed => !areDatesOnSameDay gregKey (some ed) (some newDate)
    else stateDates ++ [newDate]
  if truthyNum maxB && decide (maxB.getD 0 < newDates.length) then none
  else
    some ⟨List.insertionSort (fun a b => a ≤ b) newDates, newDate,
      if existsSameDay then MultiChangeKind.removed else MultiChangeKind.added⟩

/-- The calendar systems the picker dispatches on. -/
inductive CalType where
  | gregory
  | islamic
  | jalali
deriving DecidableEq, Repr

/-- Weekday (0 = Sunday .. 6 = Saturday) of an absolute day number, where day 0 = 1970-01-01
was a Thursday. -/
def weekdayOfAbs (a : Int) : Nat := ((a + 4) % 7).toNat

/-- Interface of the date arithmetic the grid builder draws on.  `daysInMonth` and `abs1`
model the active dayjs calendar (month length and absolute day number of day 1 of a 0-based
month); the uq fields model the @umalqura/core library (the hd field read back after
constructing day 30, and the dayOfWeek of day 1, which the library derives from JS
Date#getDay and is therefore always in [0,6]); `hijriAbs` and `hijriWeekStartAbs` model the
absolute day obtained by converting an Umm-al-Qura date back to a Gregorian instant.
Theorems quantify over every such interface; concrete instances appear further below. -/
structure CalOps where
  daysInMonth : Int → Nat → Nat
  abs1 : Int → Nat → Int
  uqHd30 : Int → Nat → Nat
  uqDow1 : Int → Nat → Nat
  hijriAbs : Int → Nat → Int → Int
  hijriWeekStartAbs : Int → Int

/-- Previous month with year rollover, as produced by the dayjs month setter at index -1. -/
def prevYM (y : Int) (m : Nat) : Int × Nat :=
  if m = 0 then (y - 1, 11) else (y, m - 1)

/-- Next month with year rollover, as produced by the dayjs month setter at index 12. -/
def nextYM (y : Int) (m : Nat) : Int × Nat :=
  if m = 11 then (y + 1, 0) else (y, m + 1)

/-- Embedding of getDaysInHijriMonth (utils.ts): probe day 30 of the Umm-al-Qura month and
declare 30 days when its hd field reads back as 30, else 29. -/
def getDaysInHijriMonth (ops : CalOps) (y : Int) (m : Nat) : Nat :=
  if ops.uqHd30 y m = 30 then 30 else 29

/-- Record returned by getDaysInMonth (utils.ts). -/
structure MonthInfo where
  prevMonthDays : Nat
  prevMonthOffset : Nat
  daysInCurrentMonth : Nat
  daysInNextMonth : Nat
  fullDaysInMonth : Nat
deriving DecidableEq, Repr

/-- Embedding of getDaysInMonth (utils.ts) at a reference date in month `m` (0-based) of year
`y`.  For non-islamic calendars the offset is date(1 - firstDayOfWeek).day() % 7; for islamic
the month lengths come from getDaysInHijriMonth and the offset is overridden with
umalqura(y, m + 1, 1).dayOfWeek. -/
def getDaysInMonth (ops : CalOps) (cal : CalType) (y : Int) (m : Nat)
    (showOutsideDays : Bool) (firstDayOfWeek : Nat) : MonthInfo :=
  let pm := prevYM y m
  let daysInCurrentMonth :=
    if cal = CalType.islamic then getDaysInHijriMonth ops y m else ops.daysInMonth y m
  let prevMonthDays :=
    if cal = CalType.islamic then getDaysInHijriMonth ops pm.1 pm.2
    else ops.daysInMonth pm.1 pm.2
  let prevMonthOffset :=
    if cal = CalType.islamic then ops.uqDow1 y m
    else weekdayOfAbs (ops.abs1 y m + (1 - (firstDayOfWeek : Int)) - 1) % 7
  let daysInPrevMonth := if showOutsideDays then prevMonthOffset else 0
  let monthDaysOffset := prevMonthOffset + daysInCurrentMonth
  let daysInNextMonth :=
    if showOutsideDays then
      if 35 < monthDaysOffset then 42 - monthDaysOffset else 35 - monthDaysOffset
    else 0
  ⟨prevMonthDays, prevMonthOffset, daysInCurrentMonth, daysInNextMonth,
    daysInPrevMonth + daysInCurrentMonth + daysInNextMonth⟩

/-- Digit-replacement numeral formatting, modelling formatNumber / replaceDigits (utils.ts):
every decimal digit of the printed number goes through the numeral digit map. -/
def formatNumber (numerals : Char → Char) (value : Int) : String :=
  String.mk ((toString value).data.map fun c => if c.isDigit then numerals c else c)

/-- Day-cell descriptor built by generateCalendarDay (utils.ts): the date field carries the
cell's midnight timestamp. -/
structure CalendarDay where
  text : String
  number : Int
  date : Int
  isDisabled : Bool
  isCurrentMonth : Bool
  dayOfMonth : Nat
  isStartOfWeek : Bool
  isEndOfWeek : Bool
deriving DecidableEq, Repr

/-- Embedding of generateCalendarDay (utils.ts) at a cell on absolute day `absDay`.  As in
the source, isDateDisabled is consulted without a calendar argument, hence with the default
gregorian same-day key.  Start of week is the Sunday-based dayjs week start shifted by
firstDayOfWeek for non-islamic calendars, and the Umm-al-Qura week start for islamic. -/
def generateCalendarDay (ops : CalOps) (numerals : Char → Char) (cal : CalType)
    (number : Int) (absDay : Int) (o : DisabledOpts) (isCurrentMonth : Bool)
    (dayOfMonth : Nat) (firstDayOfWeek : Nat) : CalendarDay :=
  let startOfWeek :=
    if cal = CalType.islamic then ops.hijriWeekStartAbs absDay
    else absDay - (weekdayOfAbs absDay : Int) + firstDayOfWeek
  { text := formatNumber numerals number
    number := number
    date := absDay * secPerDay
    isDisabled := isDateDisabled gregKey (absDay * secPerDay) o
    isCurrentMonth := isCurrentMonth
    dayOfMonth := dayOfMonth
    isStartOfWeek := absDay == startOfWeek
    isEndOfWeek := weekdayOfAbs absDay == (firstDayOfWeek + 6) % 7 }

/-- Embedding of getMonthDays (utils.ts): trailing days of the previous month (cells when
showOutsideDays, otherwise null placeholders), the current month, then leading days of the
next month.  The three counts are taken as arguments exactly as in the source. -/
def getMonthDays (ops : CalOps) (cal : CalType) (y : Int) (m : Nat)
    (showOutsideDays : Bool) (o : DisabledOpts) (firstDayOfWeek : Nat)
    (numerals : Char → Char) (prevMonthDays prevMonthOffset daysInCurrentMonth
    daysInNextMonth : Nat) : List (Option CalendarDay) :=
  let pm := prevYM y m
  let nm := nextYM y m
  let prevDays :=
    if showOutsideDays then
      (List.range prevMonthOffset).map fun (index : Nat) =>
        let number : Int := (index : Int) + ((prevMonthDays : Int) - prevMonthOffset + 1)
        let absDay :=
          if cal = CalType.islamic then ops.hijriAbs pm.1 pm.2 number
          else ops.abs1 pm.1 pm.2 + number - 1
        some (generateCalendarDay ops numerals cal number absDay o false (index + 1)
          firstDayOfWeek)
    else List.replicate prevMonthOffset none
  let currentDays := (List.range daysInCurrentMonth).map fun index =>
    let day : Nat := index + 1
    let absDay :=
      if cal = CalType.islamic then ops.hijriAbs y m (Int.ofNat day)
      else ops.abs1 y m + index
    some (generateCalendarDay ops numerals cal (Int.ofNat day) absDay o true
      (prevMonthOffset + day) firstDayOfWeek)
  let nextDays := (List.range daysInNextMonth).map fun index =>
    let day : Nat := index + 1
    let absDay :=
      if cal = CalType.islamic then ops.hijriAbs nm.1 nm.2 (Int.ofNat day)
      else ops.abs1 nm.1 nm.2 + index
    some (generateCalendarDay ops numerals cal (Int.ofNat day) absDay o false
      (daysInCurrentMonth + prevMonthOffset + day) firstDayOfWeek)
  prevDays ++ currentDays ++ nextDays

/-- Gregorian leap year rule. -/
def isLeapG (y : Int) : Bool := (y % 4 == 0 && y % 100 != 0) || (y % 400 == 0)

/-- Gregorian month lengths, month 0-based. -/
def daysInMonthG (y : Int) (m : Nat) : Nat :=
  if m = 1 then (if isLeapG y then 29 else 28)
  else if m = 3 || m = 5 || m = 8 || m = 10 then 30
  else 31

/-- Absolute day number (1970-01-01 = day 0) of day `d` of 0-based month `m` of Gregorian
year `y`, by the standard days-from-civil algorithm over 400-year eras. -/
def absDayG (y : Int) (m : Nat) (d : Int) : Int :=
  let yShift := if m < 2 then y - 1 else y
  let era := yShift / 400
  let yoe := yShift - era * 400
  let mp : Int := ((m : Int) + 10) % 12
  let doy := (153 * mp + 2) / 5 + d - 1
  let doe := yoe * 365 + yoe / 4 - yoe / 100 + doy
  era * 146097 + doe - 719468

/-- Concrete gregorian interface: real month lengths and civil day arithmetic; the
Umm-al-Qura fields are irrelevant on this calendar and instantiated trivially. -/
def gregOps : CalOps :=
  { daysInMonth := daysInMonthG
    abs1 := fun y m => absDayG y m 1
    uqHd30 := fun _ _ => 30
    uqDow1 := fun _ _ => 0
    hijriAbs := fun _ _ _ => 0
    hijriWeekStartAbs := fun a => a }

/-- Interface modelled from the @umalqura/core table for the months used in concrete
evaluations: the Umm-al-Qura calendar places day 1 of Muharram 1446 AH on Gregorian
2024-07-07, so its dayOfWeek field for that month is the weekday of that civil day. -/
def uqDemoOps : CalOps :=
  { daysInMonth := daysInMonthG
    abs1 := fun y m => absDayG y m 1
    uqHd30 := fun _ _ => 30
    uqDow1 := fun y m => if y = 1446 && m = 0 then weekdayOfAbs (absDayG 2024 6 7) else 0
    hijriAbs := fun _ _ _ => 0
    hijriWeekStartAbs := fun a => a }

/-- Calendar-system tag carried on a dayjs value by the calendar-systems dayjs plugin (the
internal $C property); `plain` models a value the plugin has not tagged. -/
inductive CSys where
  | plain
  | gregory
  | islamic
  | jalali
deriving DecidableEq, Repr

/-- Essentials of an @umalqura/core object: Hijri year, 1-based Hijri month, Hijri day and
the dayOfWeek field. -/
structure HijriDate where
  hy : Int
  hm : Nat
  hd : Nat
  dow : Nat
deriving DecidableEq, Repr

/-- Gregorian triple returned by umalqura hijriToGregorian. -/
structure GregDate where
  gy : Int
  gm : Nat
  gd : Nat
deriving DecidableEq, Repr

/-- Model of a dayjs value as manipulated by getDayjs / adjustDayjsHijriDate (utils.ts):
the calendar tag $C, the display fields $y / $M / $D, the paired Gregorian fields
$G_y / $G_M / $G_D, the weekday field $W, hour and minute, and the underlying instant. -/
structure DJ where
  cSys : CSys
  y : Int
  M : Nat
  D : Nat
  gY : Int
  gM : Nat
  gD : Nat
  W : Nat
  H : Nat
  minF : Nat
  ts : Int
deriving DecidableEq, Repr

/-- Year setter; dayjs setters keep the calendar-system tag of the value. -/
def DJ.withYear (d : DJ) (v : Int) : DJ := { d with y := v }

/-- Month setter. -/
def DJ.withMonth (d : DJ) (v : Nat) : DJ := { d with M := v }

/-- Day-of-month setter. -/
def DJ.withDate (d : DJ) (v : Nat) : DJ := { d with D := v }

/-- Raw input of getDayjs: either an existing dayjs value or a plain instant (a JS Date,
string or number). -/
inductive DVal where
  | dj (d : DJ)
  | raw (t : Int)
deriving DecidableEq, Repr

/-- Interface of the external conversions used by the islamic branch of getDayjs:
umalqura(new Date(y, m, d)), umalqura(new Date(instant)), umalqura hijriToGregorian, the
dayjs constructor on a raw input and the display-field recomputation performed by the
calendar-systems plugin when switching a value to the islamic system.  Theorems quantify
over every such interface. -/
structure HijriEnv where
  fromYmd : Int → Nat → Nat → HijriDate
  fromTs : Int → HijriDate
  hijriToGregorian : HijriDate → GregDate
  ofInput : DVal → DJ
  islamicFields : DJ → DJ

/-- Model of toCalendarSystem applied with the islamic system: the plugin recomputes the
display fields and tags the value with $C = islamic. -/
def toCalendarSystemIslamic (env : HijriEnv) (d : DJ) : DJ :=
  { env.islamicFields d with cSys := CSys.islamic }

/-- Embedding of adjustDayjsHijriDate (utils.ts).  The umalqura date is the supplied one,
or is derived from the display fields of a dayjs input (isDayjs true), or from the instant
of a raw input.  A value already tagged islamic is adjusted through its setters; any other
value is first switched to the islamic system.  The raw field writes at the end of the
source function then overwrite the display, paired-Gregorian and weekday fields. -/
def adjustDayjsHijriDate (env : HijriEnv) (x : DVal) (hijriDate : Option HijriDate) : DJ :=
  let u := match hijriDate with
    | some h => h
    | none => match x with
      | DVal.dj d => env.fromYmd d.y d.M d.D
      | DVal.raw t => env.fromTs t
  let g := env.hijriToGregorian u
  let v := match x with
    | DVal.dj d =>
      if d.cSys = CSys.islamic then ((d.withYear u.hy).withDate u.hd).withMonth (u.hm - 1)
      else ((toCalendarSystemIslamic env (env.ofInput x)).withYear u.hy).withMonth (u.hm - 1)
    | DVal.raw _ => ((toCalendarSystemIslamic env (env.ofInput x)).withYear u.hy).withMonth
        (u.hm - 1)
  { v with
    M := u.hm - 1
    D := u.hd
    y := u.hy
    gD := g.gd
    gM := g.gm
    gY := g.gy
    W := u.dow }

/-- Embedding of getDayjs (utils.ts) with calendar = islamic.  An absent input falls back to
the current instant `now` (new Date()); an input already tagged $C = islamic is returned as
is; anything else goes through adjustDayjsHijriDate. -/
def getDayjsIslamic (env : HijriEnv) (now : Int) (date : Option DVal) : DJ :=
  let x := date.getD (DVal.raw now)
  match x with
  | DVal.dj d => if d.cSys = CSys.islamic then d else adjustDayjsHijriDate env x none
  | DVal.raw _ => adjustDayjsHijriDate env x none

/-- Simple concrete conversion interface, used to evaluate the adapter theorems at concrete
inputs (the theorems themselves hold for every interface). -/
def trivialHijriEnv : HijriEnv :=
  { fromYmd := fun _ _ _ => ⟨1446, 1, 1, 0⟩
    fromTs := fun _ => ⟨1446, 1, 1, 0⟩
    hijriToGregorian := fun _ => ⟨2024, 6, 7⟩
    ofInput := fun x =>
      match x with
      | DVal.dj d => d
      | DVal.raw t => ⟨CSys.plain, 1970, 0, 1, 1970, 0, 1, 4, 0, 0, t⟩
    islamicFields := fun d => d }

/-! Helper lemmas. -/

theorem adjustDayjsHijriDate_cSys (env : HijriEnv) (x : DVal) (h : Option HijriDate) :
    (adjustDayjsHijriDate env x h).cSys = CSys.islamic := by
  cases x with
  | dj d =>
    by_cases hc : d.cSys = CSys.islamic
    · simp [adjustDayjsHijriDate, DJ.withYear, DJ.withMonth, DJ.withDate, hc]
    · simp [adjustDayjsHijriDate, toCalendarSystemIslamic, DJ.withYear, DJ.withMonth,
        DJ.withDate, hc]
  | raw t =>
    simp [adjustDayjsHijriDate, toCalendarSystemIslamic, DJ.withYear, DJ.withMonth]

theorem getMonthDays_length (ops : CalOps) (cal : CalType) (y : Int) (m : Nat)
    (so : Bool) (o : DisabledOpts) (f : Nat) (numerals : Char → Char)
    (pmd off ncur nnext : Nat) :
    (getMonthDays ops cal y m so o f numerals pmd off ncur nnext).length =
      off + ncur + nnext := by
  cases so <;> simp [getMonthDays] <;> omega

theorem prevMonthOffset_lt (ops : CalOps) (cal : CalType) (y : Int) (m : Nat)
    (so : Bool) (f : Nat) (hdow : ∀ y m, ops.uqDow1 y m < 7) :
    (getDaysInMonth ops cal y m so f).prevMonthOffset < 7 := by
  simp only [getDaysInMonth]
  split
  · exact hdow y m
  · exact Nat.mod_lt _ (by omega)

theorem daysInCurrentMonth_le (ops : CalOps) (cal : CalType) (y : Int) (m : Nat)
    (so : Bool) (f : Nat) (hlen : ∀ y m, ops.daysInMonth y m ≤ 31) :
    (getDaysInMonth ops cal y m so f).daysInCurrentMonth ≤ 31 := by
  simp only [getDaysInMonth, getDaysInHijriMonth]
  split
  · split <;> omega
  · exact hlen y m

theorem daysInNextMonth_outside (ops : CalOps) (cal : CalType) (y : Int) (m : Nat)
    (f : Nat) :
    (getDaysInMonth ops cal y m true f).daysInNextMonth =
      (if 35 < (getDaysInMonth ops cal y m true f).prevMonthOffset +
          (getDaysInMonth ops cal y m true f).daysInCurrentMonth then
        42 - ((getDaysInMonth ops cal y m true f).prevMonthOffset +
          (getDaysInMonth ops cal y m true f).daysInCurrentMonth)
      else
        35 - ((getDaysInMonth ops cal y m true f).prevMonthOffset +
          (getDaysInMonth ops cal y m true f).daysInCurrentMonth)) := rfl

theorem daysInNextMonth_suppressed (ops : CalOps) (cal : CalType) (y : Int) (m : Nat)
    (f : Nat) : (getDaysInMonth ops cal y m false f).daysInNextMonth = 0 := rfl

theorem startOfDay_idem (t : Int) : startOfDay (startOfDay t) = startOfDay t := by
  unfold startOfDay secPerDay
  omega

theorem spanViolated_true_imp_truthy (minB maxB : Option Nat) (nd : Int)
    (h : spanViolated minB maxB nd = true) : (truthyNum minB || truthyNum maxB) = true := by
  unfold spanViolated at h
  cases ha : truthyNum minB <;> cases hb : truthyNum maxB <;> simp_all

theorem dayIdx_lt_le {a b : Int} (h : dayIdx a < dayIdx b) : a ≤ b := by
  unfold dayIdx secPerDay at h
  omega

theorem pairwise_day_sorted {l : List Int}
    (h : l.Pairwise fun a b => dayIdx a < dayIdx b) : l.Sorted (fun a b => a ≤ b) :=
  h.imp fun hab => dayIdx_lt_le hab

theorem sameDay_eq_beq (a b : Int) :
    areDatesOnSameDay gregKey (some a) (some b) = (dayIdx a == dayIdx b) := rfl

theorem filter_not_eq_eraseP {α : Type} (p : α → Bool) (l : List α)
    (h : l.Pairwise fun a b => ¬(p a = true ∧ p b = true)) :
    l.filter (fun e => !p e) = l.eraseP p := by
  induction l with
  | nil => rfl
  | cons a t ih =>
    rw [List.pairwise_cons] at h
    obtain ⟨h1, h2⟩ := h
    by_cases hp : p a = true
    · rw [List.filter_cons_of_neg (by simp [hp]), List.eraseP_cons_of_pos hp]
      apply List.filter_eq_self.mpr
      intro b hb
      have hb2 := h1 b hb
      simp [hp] at hb2
      simp [hb2]
    · rw [List.filter_cons_of_pos (by simp [hp]), List.eraseP_cons_of_neg hp, ih h2]

theorem getDayjsIslamic_cSys (env : HijriEnv) (now : Int) (d : Option DVal) :
    (getDayjsIslamic env now d).cSys = CSys.islamic := by
  unfold getDayjsIslamic
  cases d with
  | none => simp [adjustDayjsHijriDate_cSys]
  | some v =>
    cases v with
    | dj d0 =>
      by_cases hc : d0.cSys = CSys.islamic
      · simp [hc]
      · simp [hc, adjustDayjsHijriDate_cSys]
    | raw t => simp [adjustDayjsHijriDate_cSys]

theorem daysInMonthG_le (y : Int) (m : Nat) : daysInMonthG y m ≤ 31 := by
  unfold daysInMonthG
  split
  · split <;> omega
  · split <;> omega

theorem weekdayOfAbs_lt (a : Int) : weekdayOfAbs a < 7 := by
  unfold weekdayOfAbs
  omega

theorem gregOpsDow_lt (y : Int) (m : Nat) : gregOps.uqDow1 y m < 7 := by
  show (0 : Nat) < 7
  decide

theorem uqDemoDow_lt (y : Int) (m : Nat) : uqDemoOps.uqDow1 y m < 7 := by
  unfold uqDemoOps
  simp only
  split
  · exact weekdayOfAbs_lt _
  · decide

/-! Claim theorems. -/

/-- C10: areDatesOnSameDay returns false whenever either argument is absent, for every
same-day key function (hence without depending on any date conversion); consequently an
absent date never matches any list entry, in either argument position. -/
theorem areDatesOnSameDay_absent_false (toKey : Int → Int) (a : Option Int)
    (l : List (Option Int)) :
    areDatesOnSameDay toKey none a = false ∧
    areDatesOnSameDay toKey a none = false ∧
    (l.any fun e => areDatesOnSameDay toKey e none) = false ∧
    (l.any fun e => areDatesOnSameDay toKey none e) = false := by
  refine ⟨?_, ?_, ?_, ?_⟩
  · cases a <;> rfl
  · cases a <;> rfl
  · rw [List.any_eq_false]
    intro e _
    cases e <;> simp [areDatesOnSameDay]
  · rw [List.any_eq_false]
    intro e _
    simp [areDatesOnSameDay]

/-- C3: when both an enabledDates rule and a disabledDates rule are supplied, the result of
isDateDisabled does not depend on the disabled rule, and after the min/max bound checks the
date is disabled exactly when it fails to match the enabled rule. -/
theorem isDateDisabled_enabled_precedence (toKey : Int → Int) (date : Int)
    (minD maxD : Option Int) (er dr dr2 : DateRule) :
    isDateDisabled toKey date ⟨minD, maxD, some er, some dr⟩ =
      isDateDisabled toKey date ⟨minD, maxD, some er, some dr2⟩ ∧
    isDateDisabled toKey date ⟨minD, maxD, some er, some dr⟩ =
      (belowMin date minD || aboveMax date maxD || !matchesRule toKey er date) := by
  constructor
  · rfl
  · unfold isDateDisabled
    cases hb : belowMin date minD <;> cases ha : aboveMax date maxD <;> simp [hb, ha]

/-- C7: converting to the canonical islamic representation through getDayjs is idempotent
(applying it to its own result returns that result unchanged), for every behaviour of the
external umalqura / plugin conversions and every current instant; and an input already
tagged as islamic is returned unchanged. -/
theorem getDayjs_islamic_idempotent (env : HijriEnv) (now now2 : Int) (d : Option DVal) :
    getDayjsIslamic env now (some (DVal.dj (getDayjsIslamic env now2 d))) =
      getDayjsIslamic env now2 d ∧
    ∀ x : DJ, x.cSys = CSys.islamic → getDayjsIslamic env now (some (DVal.dj x)) = x := by
  constructor
  · have h := getDayjsIslamic_cSys env now2 d
    generalize hr : getDayjsIslamic env now2 d = r at h ⊢
    simp [getDayjsIslamic, h]
  · intro x hx
    simp [getDayjsIslamic, hx]

/-- Witness for C7 at a concrete interface and inputs. -/
theorem getDayjs_islamic_idempotent_witness :
    getDayjsIslamic trivialHijriEnv 0
        (some (DVal.dj (getDayjsIslamic trivialHijriEnv 0 (some (DVal.raw 0))))) =
      getDayjsIslamic trivialHijriEnv 0 (some (DVal.raw 0)) ∧
    getDayjsIslamic trivialHijriEnv 0
        (some (DVal.dj ⟨CSys.islamic, 1446, 0, 1, 2024, 6, 7, 0, 0, 0, 0⟩)) =
      ⟨CSys.islamic, 1446, 0, 1, 2024, 6, 7, 0, 0, 0, 0⟩ :=
  ⟨(getDayjs_islamic_idempotent trivialHijriEnv 0 0 (some (DVal.raw 0))).1,
    (getDayjs_islamic_idempotent trivialHijriEnv 0 0 none).2 _ (by decide)⟩

/-- C4: with showOutsideDays = true, the sequence built by getMonthDays from the counts of
getDaysInMonth has length exactly 35 or exactly 42, and that length covers the leading
offset plus the current month; stated for every reference month, calendar system,
firstDayOfWeek and date arithmetic whose month lengths are at most 31 days and whose
Umm-al-Qura weekday field is a weekday. -/
theorem getMonthDays_outside_length (ops : CalOps) (cal : CalType) (y : Int) (m : Nat)
    (f : Nat) (o : DisabledOpts) (numerals : Char → Char) (info : MonthInfo)
    (out : List (Option CalendarDay))
    (hlen : ∀ y m, ops.daysInMonth y m ≤ 31) (hdow : ∀ y m, ops.uqDow1 y m < 7)
    (hinfo : info = getDaysInMonth ops cal y m true f)
    (hout : out = getMonthDays ops cal y m true o f numerals info.prevMonthDays
      info.prevMonthOffset info.daysInCurrentMonth info.daysInNextMonth) :
    (out.length = 35 ∨ out.length = 42) ∧
      info.prevMonthOffset + info.daysInCurrentMonth ≤ out.length := by
  subst hinfo
  subst hout
  rw [getMonthDays_length]
  have h1 := prevMonthOffset_lt ops cal y m true f hdow
  have h2 := daysInCurrentMonth_le ops cal y m true f hlen
  rw [daysInNextMonth_outside]
  split <;> omega

/-- Witness for C4 on the concrete gregorian arithmetic at January 2024. -/
theorem getMonthDays_outside_length_witness :
    ((getMonthDays gregOps CalType.gregory 2024 0 true ⟨none, none, none, none⟩ 0 id
        (getDaysInMonth gregOps CalType.gregory 2024 0 true 0).prevMonthDays
        (getDaysInMonth gregOps CalType.gregory 2024 0 true 0).prevMonthOffset
        (getDaysInMonth gregOps CalType.gregory 2024 0 true 0).daysInCurrentMonth
        (getDaysInMonth gregOps CalType.gregory 2024 0 true 0).daysInNextMonth).length = 35 ∨
      (getMonthDays gregOps CalType.gregory 2024 0 true ⟨none, none, none, none⟩ 0 id
        (getDaysInMonth gregOps CalType.gregory 2024 0 true 0).prevMonthDays
        (getDaysInMonth gregOps CalType.gregory 2024 0 true 0).prevMonthOffset
        (getDaysInMonth gregOps CalType.gregory 2024 0 true 0).daysInCurrentMonth
        (getDaysInMonth gregOps CalType.gregory 2024 0 true 0).daysInNextMonth).length = 42) ∧
      (getDaysInMonth gregOps CalType.gregory 2024 0 true 0).prevMonthOffset +
          (getDaysInMonth gregOps CalType.gregory 2024 0 true 0).daysInCurrentMonth ≤
        (getMonthDays gregOps CalType.gregory 2024 0 true ⟨none, none, none, none⟩ 0 id
          (getDaysInMonth gregOps CalType.gregory 2024 0 true 0).prevMonthDays
          (getDaysInMonth gregOps CalType.gregory 2024 0 true 0).prevMonthOffset
          (getDaysInMonth gregOps CalType.gregory 2024 0 true 0).daysInCurrentMonth
          (getDaysInMonth gregOps CalType.gregory 2024 0 true 0).daysInNextMonth).length :=
  getMonthDays_outside_length gregOps CalType.gregory 2024 0 0 ⟨none, none, none, none⟩ id
    (getDaysInMonth gregOps CalType.gregory 2024 0 true 0) _
    (fun y m => daysInMonthG_le y m) (fun y m => gregOpsDow_lt y m) rfl rfl

/-- C5: with showOutsideDays = false, the sequence built by getMonthDays from the counts of
getDaysInMonth is exactly prevMonthOffset null placeholders followed by exactly
daysInCurrentMonth real cells, with nothing after them. -/
theorem getMonthDays_no_outside_shape (ops : CalOps) (cal : CalType) (y : Int) (m : Nat)
    (f : Nat) (o : DisabledOpts) (numerals : Char → Char) (info : MonthInfo)
    (out : List (Option CalendarDay))
    (hinfo : info = getDaysInMonth ops cal y m false f)
    (hout : out = getMonthDays ops cal y m false o f numerals info.prevMonthDays
      info.prevMonthOffset info.daysInCurrentMonth info.daysInNextMonth) :
    out.take info.prevMonthOffset = List.replicate info.prevMonthOffset none ∧
      (out.drop info.prevMonthOffset).length = info.daysInCurrentMonth ∧
      (out.drop info.prevMonthOffset).all Option.isSome = true := by
  subst hinfo
  subst hout
  rw [daysInNextMonth_suppressed]
  unfold getMonthDays
  simp only [Bool.false_eq_true, if_false, List.range_zero, List.map_nil, List.append_nil]
  refine ⟨?_, ?_, ?_⟩
  · rw [List.take_left' (by simp)]
  · rw [List.drop_left' (by simp)]
    simp
  · rw [List.drop_left' (by simp)]
    simp [List.all_eq_true]

/-- Witness for C5 on the concrete gregorian arithmetic at January 2024. -/
theorem getMonthDays_no_outside_shape_witness :
    (getMonthDays gregOps CalType.gregory 2024 0 false ⟨none, none, none, none⟩ 0 id
        (getDaysInMonth gregOps CalType.gregory 2024 0 false 0).prevMonthDays
        (getDaysInMonth gregOps CalType.gregory 2024 0 false 0).prevMonthOffset
        (getDaysInMonth gregOps CalType.gregory 2024 0 false 0).daysInCurrentMonth
        (getDaysInMonth gregOps CalType.gregory 2024 0 false 0).daysInNextMonth).take
        (getDaysInMonth gregOps CalType.gregory 2024 0 false 0).prevMonthOffset =
      List.replicate (getDaysInMonth gregOps CalType.gregory 2024 0 false 0).prevMonthOffset
        none ∧
      ((getMonthDays gregOps CalType.gregory 2024 0 false ⟨none, none, none, none⟩ 0 id
          (getDaysInMonth gregOps CalType.gregory 2024 0 false 0).prevMonthDays
          (getDaysInMonth gregOps CalType.gregory 2024 0 false 0).prevMonthOffset
          (getDaysInMonth gregOps CalType.gregory 2024 0 false 0).daysInCurrentMonth
          (getDaysInMonth gregOps CalType.gregory 2024 0 false 0).daysInNextMonth).drop
          (getDaysInMonth gregOps CalType.gregory 2024 0 false 0).prevMonthOffset).length =
        (getDaysInMonth gregOps CalType.gregory 2024 0 false 0).daysInCurrentMonth ∧
      ((getMonthDays gregOps CalType.gregory 2024 0 false ⟨none, none, none, none⟩ 0 id
          (getDaysInMonth gregOps CalType.gregory 2024 0 false 0).prevMonthDays
          (getDaysInMonth gregOps CalType.gregory 2024 0 false 0).prevMonthOffset
          (getDaysInMonth gregOps CalType.gregory 2024 0 false 0).daysInCurrentMonth
          (getDaysInMonth gregOps CalType.gregory 2024 0 false 0).daysInNextMonth).drop
          (getDaysInMonth gregOps CalType.gregory 2024 0 false 0).prevMonthOffset).all
        Option.isSome = true :=
  getMonthDays_no_outside_shape gregOps CalType.gregory 2024 0 0 ⟨none, none, none, none⟩ id
    (getDaysInMonth gregOps CalType.gregory 2024 0 false 0) _ rfl rfl

/-- C2 counterexample: on the islamic calendar with firstDayOfWeek = 1 at Muharram 1446 AH,
the code returns the Umm-al-Qura weekday of day 1 unrotated (0, a Sunday), while the claimed
formula (weekday(day 1) - firstDayOfWeek + 7) mod 7 yields 6; so the claim fails. -/
theorem islamic_offset_rotation_counterexample :
    (getDaysInMonth uqDemoOps CalType.islamic 1446 0 true 1).prevMonthOffset ≠
      (uqDemoOps.uqDow1 1446 0 + 7 - 1) % 7 := by decide

/-- C2 amended: for non-islamic calendars prevMonthOffset is
(weekday(day 1) - firstDayOfWeek + 7) mod 7 as claimed, for every firstDayOfWeek in [0,6];
for the islamic calendar it is the Umm-al-Qura weekday field of day 1 of the month with no
firstDayOfWeek rotation applied. -/
theorem prevMonthOffset_formula (ops : CalOps) (cal : CalType) (y : Int) (m : Nat)
    (so : Bool) (f : Nat) (hf : f ≤ 6) :
    (getDaysInMonth ops cal y m so f).prevMonthOffset =
      (if cal = CalType.islamic then ops.uqDow1 y m
       else (weekdayOfAbs (ops.abs1 y m) + 7 - f) % 7) := by
  simp only [getDaysInMonth]
  split
  · rfl
  · unfold weekdayOfAbs
    omega

/-- Witness for C2 amended, on the concrete gregorian arithmetic at January 2024 with a
Saturday week start. -/
theorem prevMonthOffset_formula_witness :
    6 ≤ 6 ∧
      (getDaysInMonth gregOps CalType.gregory 2024 0 true 6).prevMonthOffset =
        (if CalType.gregory = CalType.islamic then gregOps.uqDow1 2024 0
         else (weekdayOfAbs (gregOps.abs1 2024 0) + 7 - 6) % 7) :=
  ⟨by decide, prevMonthOffset_formula gregOps CalType.gregory 2024 0 true 6 (by decide)⟩

/-- C1 counterexample: in range mode with start 2024-01-10, end 2024-01-15 and a pick of
2024-01-10 (the anchor re-picked) and no min/max day-count bounds configured, the reported
selection is not the reset {undefined, undefined}: the code keeps the start and collapses
the end onto the picked day. -/
theorem range_repick_anchor_counterexample :
    onSelectDateRange 0 (some (86400 * 19732)) (some (86400 * 19737)) (86400 * 19732)
      none none ≠ ⟨none, none⟩ := by decide

/-- C1 amended: re-picking the anchor of a range whose two bounds lie on distinct days
resets the selection to {undefined, undefined} exactly when a nonzero min or max day-count
bound is configured; with no (nonzero) bound configured the code instead reports the start
unchanged and the picked day, end-of-day, as the new end. -/
theorem range_repick_anchor (now s e sel : Int) (minB maxB : Option Nat)
    (hne : startOfDay s ≠ startOfDay e) (hsame : startOfDay sel = startOfDay s) :
    onSelectDateRange now (some s) (some e) sel minB maxB =
      (if truthyNum minB || truthyNum maxB then ⟨none, none⟩
       else ⟨some (startOfDay s), some (endOfDay sel)⟩) := by
  by_cases ht : (truthyNum minB || truthyNum maxB) = true
  · simp [onSelectDateRange, removeTime, dateToUnix, endOfDay, startOfDay_idem, hsame, hne,
      ht]
  · simp [onSelectDateRange, removeTime, dateToUnix, endOfDay, startOfDay_idem, hsame, hne,
      ht]

/-- Witness for C1 amended at 2024-01-10 / 2024-01-15 with max = 30 configured. -/
theorem range_repick_anchor_witness :
    startOfDay (86400 * 19732) ≠ startOfDay (86400 * 19737) ∧
      onSelectDateRange 0 (some (86400 * 19732)) (some (86400 * 19737)) (86400 * 19732)
          none (some 30) =
        (if truthyNum none || truthyNum (some 30) then ⟨none, none⟩
         else ⟨some (startOfDay (86400 * 19732)), some (endOfDay (86400 * 19732))⟩) :=
  ⟨by decide, range_repick_anchor 0 (86400 * 19732) (86400 * 19737) (86400 * 19732)
    none (some 30) (by decide) (by decide)⟩

/-- C8 counterexample: with start = end = 2024-01-10 (a degenerate range), a pick of
2024-01-15 and max = 3 configured, the code does not report {start, end-of-day of the pick}:
the span violates the bound, so the range restarts at the picked day with no end. -/
theorem range_degenerate_bounds_counterexample :
    onSelectDateRange 0 (some (86400 * 19732)) (some (86400 * 19732)) (86400 * 19737)
        none (some 3) ≠
      ⟨some (startOfDay (86400 * 19732)), some (endOfDay (86400 * 19737))⟩ := by decide

/-- C8 amended: when start and end are set and on the same day and the pick is strictly
later, the code reports the existing start (start-of-day) unchanged and the picked day,
normalized to end-of-day, as the new end, provided the new span satisfies any configured
min/max day-count bounds; when the span violates them the range instead restarts at the
picked day (start = picked start-of-day, end = undefined). -/
theorem range_degenerate_pick_later (now s e sel : Int) (minB maxB : Option Nat)
    (heq : startOfDay s = startOfDay e) (hlt : startOfDay s < startOfDay sel) :
    onSelectDateRange now (some s) (some e) sel minB maxB =
      (if spanViolated minB maxB (diffDays (startOfDay sel) (startOfDay s)) then
        ⟨some (startOfDay sel), none⟩
       else ⟨some (startOfDay s), some (endOfDay sel)⟩) := by
  have hne : startOfDay s ≠ startOfDay sel := by omega
  by_cases hv : spanViolated minB maxB (diffDays (startOfDay sel) (startOfDay s)) = true
  · have ht := spanViolated_true_imp_truthy _ _ _ hv
    simp [onSelectDateRange, removeTime, dateToUnix, endOfDay, startOfDay_idem, ← heq, hne,
      hne.symm, hlt, ht, hv, not_lt_of_gt hlt]
  · by_cases ht : (truthyNum minB || truthyNum maxB) = true
    · simp [onSelectDateRange, removeTime, dateToUnix, endOfDay, startOfDay_idem, ← heq,
        hne, hne.symm, hlt, ht, hv, not_lt_of_gt hlt]
    · simp [onSelectDateRange, removeTime, dateToUnix, endOfDay, startOfDay_idem, ← heq,
        hne, hne.symm, hlt, ht, hv, not_lt_of_gt hlt]

/-- Witness for C8 amended at start = end = 2024-01-10 with a pick of 2024-01-15 and no
bounds configured. -/
theorem range_degenerate_pick_later_witness :
    startOfDay (86400 * 19732) = startOfDay (86400 * 19732) ∧
      onSelectDateRange 0 (some (86400 * 19732)) (some (86400 * 19732)) (86400 * 19737)
          none none =
        (if spanViolated none none
            (diffDays (startOfDay (86400 * 19737)) (startOfDay (86400 * 19732))) then
          ⟨some (startOfDay (86400 * 19737)), none⟩
         else ⟨some (startOfDay (86400 * 19732)), some (endOfDay (86400 * 19737))⟩) :=
  ⟨rfl, range_degenerate_pick_later 0 (86400 * 19732) (86400 * 19732) (86400 * 19737)
    none none (by decide) (by decide)⟩

/-- C9: in multiple mode the count guard is evaluated on the resulting list after the
toggle, so when a same-day entry is being removed but more than max dates would still
remain, the removal is a no-op and no change notification is emitted. -/
theorem multiple_remove_exceeding_max_noop (dates : List Int) (sel : Int) (mx : Nat)
    (hmx : mx ≠ 0)
    (hex : (dates.any fun ed =>
      areDatesOnSameDay gregKey (some ed) (some (startOfDay sel))) = true)
    (hlen : mx < (dates.filter fun ed =>
      !areDatesOnSameDay gregKey (some ed) (some (startOfDay sel))).length) :
    onSelectDateMultiple dates sel (some mx) = none := by
  simp only [onSelectDateMultiple, hex, if_true]
  simp [truthyNum, hmx, hlen]

/-- Witness for C9 with five selected days, max = 3 and a pick of the first day. -/
theorem multiple_remove_exceeding_max_noop_witness :
    (3 : Nat) ≠ 0 ∧
      (([86400 * 19727, 86400 * 19728, 86400 * 19729, 86400 * 19730, 86400 * 19731].any
        fun ed => areDatesOnSameDay gregKey (some ed)
          (some (startOfDay (86400 * 19727)))) = true) ∧
      3 < ([86400 * 19727, 86400 * 19728, 86400 * 19729, 86400 * 19730,
        86400 * 19731].filter fun ed =>
          !areDatesOnSameDay gregKey (some ed) (some (startOfDay (86400 * 19727)))).length ∧
      onSelectDateMultiple [86400 * 19727, 86400 * 19728, 86400 * 19729, 86400 * 19730,
        86400 * 19731] (86400 * 19727) (some 3) = none :=
  ⟨by decide, by decide, by decide,
    multiple_remove_exceeding_max_noop _ _ 3 (by decide) (by decide) (by decide)⟩

/-- C6 counterexample: in multiple mode with five selected days (all on distinct days,
sorted) and max = 3, picking a day that is already selected does not report the removal:
the guard fires on the post-toggle length (4 > 3) and no notification is emitted. -/
theorem multiple_remove_blocked_counterexample :
    (([86400 * 19727, 86400 * 19728, 86400 * 19729, 86400 * 19730, 86400 * 19731].any
        fun ed => areDatesOnSameDay gregKey (some ed)
          (some (startOfDay (86400 * 19727)))) = true) ∧
      onSelectDateMultiple [86400 * 19727, 86400 * 19728, 86400 * 19729, 86400 * 19730,
        86400 * 19731] (86400 * 19727) (some 3) = none := by decide

/-- C6 amended: in multiple mode, over selections whose entries lie on pairwise distinct
days in ascending order, and with the pick normalized to start-of-day: a same-day pick
whose removal respects the configured maximum reports the list with that entry removed and
change removed; a new pick whose addition respects the maximum reports a sorted permutation
of the old list plus the pick with change added; an addition that would exceed the maximum
is a no-op (as is a removal that would still exceed it). -/
theorem multiple_toggle_behavior (dates : List Int) (sel : Int) (maxB : Option Nat)
    (hsorted : dates.Pairwise fun a b => dayIdx a < dayIdx b) :
    ((dates.any fun ed =>
        areDatesOnSameDay gregKey (some ed) (some (startOfDay sel))) = true →
      (truthyNum maxB && decide (maxB.getD 0 <
        (dates.filter fun ed =>
          !areDatesOnSameDay gregKey (some ed) (some (startOfDay sel))).length)) = false →
      onSelectDateMultiple dates sel maxB =
        some ⟨dates.eraseP fun ed =>
            areDatesOnSameDay gregKey (some ed) (some (startOfDay sel)),
          startOfDay sel, MultiChangeKind.removed⟩) ∧
    ((dates.any fun ed =>
        areDatesOnSameDay gregKey (some ed) (some (startOfDay sel))) = false →
      (truthyNum maxB &&
        decide (maxB.getD 0 < (dates ++ [startOfDay sel]).length)) = false →
      ∃ r, onSelectDateMultiple dates sel maxB = some r ∧
        r.dates.Perm (dates ++ [startOfDay sel]) ∧ r.dates.Sorted (fun a b => a ≤ b) ∧
        r.datePressed = startOfDay sel ∧ r.change = MultiChangeKind.added) ∧
    ((dates.any fun ed =>
        areDatesOnSameDay gregKey (some ed) (some (startOfDay sel))) = false →
      (truthyNum maxB &&
        decide (maxB.getD 0 < (dates ++ [startOfDay sel]).length)) = true →
      onSelectDateMultiple dates sel maxB = none) := by
  refine ⟨?_, ?_, ?_⟩
  · intro hex hguard
    have hpair : dates.Pairwise fun a b =>
        ¬((areDatesOnSameDay gregKey (some a) (some (startOfDay sel))) = true ∧
          (areDatesOnSameDay gregKey (some b) (some (startOfDay sel))) = true) := by
      refine hsorted.imp ?_
      intro a b hab hcon
      obtain ⟨ha, hb⟩ := hcon
      rw [sameDay_eq_beq] at ha hb
      rw [beq_iff_eq] at ha hb
      omega
    have hfe := filter_not_eq_eraseP
      (fun ed => areDatesOnSameDay gregKey (some ed) (some (startOfDay sel))) dates hpair
    have hsorted2 : (dates.filter fun ed =>
        !areDatesOnSameDay gregKey (some ed) (some (startOfDay sel))).Sorted
          (fun a b => a ≤ b) :=
      pairwise_day_sorted (hsorted.filter _)
    simp only [onSelectDateMultiple, hex, if_true, hguard, Bool.false_eq_true, if_false]
    rw [List.Sorted.insertionSort_eq hsorted2, hfe]
  · intro hex hguard
    simp only [onSelectDateMultiple, hex, Bool.false_eq_true, if_false, hguard]
    exact ⟨_, rfl, List.perm_insertionSort _ _, List.sorted_insertionSort _ _, rfl, rfl⟩
  · intro hex hguard
    simp only [onSelectDateMultiple, hex, Bool.false_eq_true, if_false, hguard, if_true]

/-- Witness for C6 amended on the spec example list {2024-01-05, 2024-01-10}. -/
theorem multiple_toggle_behavior_witness :
    (([86400 * 19727, 86400 * 19732].any fun ed =>
        areDatesOnSameDay gregKey (some ed) (some (startOfDay (86400 * 19727)))) = true →
      (truthyNum none && decide ((Option.getD none 0 : Nat) <
        ([86400 * 19727, 86400 * 19732].filter fun ed =>
          !areDatesOnSameDay gregKey (some ed)
            (some (startOfDay (86400 * 19727)))).length)) = false →
      onSelectDateMultiple [86400 * 19727, 86400 * 19732] (86400 * 19727) none =
        some ⟨[86400 * 19727, 86400 * 19732].eraseP fun ed =>
            areDatesOnSameDay gregKey (some ed) (some (startOfDay (86400 * 19727))),
          startOfDay (86400 * 19727), MultiChangeKind.removed⟩) ∧
    (([86400 * 19727, 86400 * 19732].any fun ed =>
        areDatesOnSameDay gregKey (some ed) (some (startOfDay (86400 * 19727)))) = false →
      (truthyNum none && decide ((Option.getD none 0 : Nat) <
        ([86400 * 19727, 86400 * 19732] ++ [startOfDay (86400 * 19727)]).length)) = false →
      ∃ r, onSelectDateMultiple [86400 * 19727, 86400 * 19732] (86400 * 19727) none =
          some r ∧
        r.dates.Perm ([86400 * 19727, 86400 * 19732] ++ [startOfDay (86400 * 19727)]) ∧
        r.dates.Sorted (fun a b => a ≤ b) ∧
        r.datePressed = startOfDay (86400 * 19727) ∧ r.change = MultiChangeKind.added) ∧
    (([86400 * 19727, 86400 * 19732].any fun ed =>
        areDatesOnSameDay gregKey (some ed) (some (startOfDay (86400 * 19727)))) = false →
      (truthyNum none && decide ((Option.getD none 0 : Nat) <
        ([86400 * 19727, 86400 * 19732] ++ [startOfDay (86400 * 19727)]).length)) = true →
      onSelectDateMultiple [86400 * 19727, 86400 * 19732] (86400 * 19727) none = none) :=
  multiple_toggle_behavior [86400 * 19727, 86400 * 19732] (86400 * 19727) none (by decide)

end RNCal

